import Mathlib

set_option maxRecDepth 2000

/-!
Shallow embedding of the CHIP-8 interpreter core (`chip8.go`) and proofs
checking the natural-language specification against it.

Machine integers are modelled as `Nat` with explicit truncation: `u16` for
Go `uint16` arithmetic and `byte` for Go `uint8`/`byte` arithmetic.
Fixed-size Go arrays (`memory [4096]byte`, `V [16]byte`, `gfx [2048]byte`,
`stack [16]uint16`) are modelled as total functions `Nat → Nat`; every
access whose index Go bounds-checks at runtime (where an out-of-range
index is a runtime fault) is modelled with an explicit bounds test that
returns an error.  A Go runtime fault (array index out of range, or the
explicit `Unknown opcode` fault) is modelled as `Except.error` carrying
the machine state at the moment of the fault.
-/

/-- Truncation to 16 bits, mirroring Go `uint16` wraparound. -/
def u16 (n : Nat) : Nat := n % 65536

/-- Truncation to 8 bits, mirroring Go `uint8` / `byte` wraparound. -/
def byte (n : Nat) : Nat := n % 256

/-- Go `uint8` subtraction `a - b` (wrapping modulo 256).  For
`a b < 256` this equals `(a - b) mod 256` in the wrapping sense. -/
def byteSub (a b : Nat) : Nat := (a + 256 - b % 256) % 256

/-- Pointwise update of a function, modelling a Go array element write. -/
def upd (f : Nat → Nat) (i v : Nat) : Nat → Nat :=
  fun j => if j = i then v else f j

@[simp] theorem upd_same (f : Nat → Nat) (i v : Nat) : upd f i v i = v := by
  simp [upd]

theorem upd_other (f : Nat → Nat) (i v j : Nat) (h : j ≠ i) :
    upd f i v j = f j := by
  simp [upd, h]

@[simp] theorem u16_small {n : Nat} (h : n < 65536) : u16 n = n :=
  Nat.mod_eq_of_lt h

@[simp] theorem byte_small {n : Nat} (h : n < 256) : byte n = n :=
  Nat.mod_eq_of_lt h

/-- The machine state of the interpreter: the fields of the Go struct
`Chip8` (the `opcode` scratch field and the key watcher handle carry no
semantics and are omitted; the key snapshot `keys` is kept). -/
structure Chip8 where
  I : Nat
  pc : Nat
  memory : Nat → Nat
  V : Nat → Nat
  gfx : Nat → Nat
  drawFlag : Bool
  stack : Nat → Nat
  sp : Nat
  delayTimer : Nat
  soundTimer : Nat
  keys : Nat → Bool

/-- Fatal conditions. Each constructor carries the machine state at the
moment the Go code faults (a Go fault unwinds leaving the struct as
mutated so far). -/
inductive Err where
  | unknownOpcode (opcode : Nat) (c : Chip8)
  | stackOverflow (c : Chip8)
  | stackUnderflow (c : Chip8)
  | outOfBounds (addr : Nat) (c : Chip8)
  | drawIndexOOB (idx : Nat) (c : Chip8)

/-- Extracts the faulting framebuffer index from a draw fault, `none` for
success or any other fault kind. -/
def drawFaultIdx : Except Err Chip8 → Option Nat
  | .error (.drawIndexOOB idx _) => some idx
  | _ => none

/-- Inner loop of the DXYN sprite draw: the 8 columns of one sprite row.
`xc` is `V[X]`, `yr` is the already-computed `uint16(y) + yline`, `pixel`
the sprite row byte; `rem` counts the loop iterations still to run and
`xline` is the current column, exactly as in the Go
`for xline := uint16(0); xline < 8; xline++` loop. -/
def drawCols (xc yr pixel : Nat) : Nat → Nat → Chip8 → Except Err Chip8
  | 0, _, c => .ok c
  | rem + 1, xline, c =>
    if pixel &&& (0x80 >>> xline) ≠ 0 then
      let idx := u16 (xc + xline + u16 (yr * 64))
      if idx < 2048 then
        let c1 := if c.gfx idx = 1 then { c with V := upd c.V 15 1 } else c
        drawCols xc yr pixel rem (xline + 1)
          { c1 with gfx := upd c1.gfx idx (byte (c1.gfx idx ^^^ 1)) }
      else .error (.drawIndexOOB idx c)
    else drawCols xc yr pixel rem (xline + 1) c

/-- Outer loop of the DXYN sprite draw over the `height` rows, reading
each row byte from `memory[I + yline]`. -/
def drawRows (xc yc : Nat) : Nat → Nat → Chip8 → Except Err Chip8
  | 0, _, c => .ok c
  | rem + 1, yline, c =>
    let a := u16 (c.I + yline)
    if a < 4096 then
      match drawCols xc (u16 (yc + yline)) (c.memory a) 8 0 c with
      | .ok c1 => drawRows xc yc rem (yline + 1) c1
      | .error e => .error e
    else .error (.outOfBounds a c)

/-- Loop of FX55: `for i := uint16(0); i < x; i++ { memory[I+i] = V[i] }`.
Note the loop runs `x` times (indices `0 .. x-1`), as in the source. -/
def storeRegs : Nat → Nat → Chip8 → Except Err Chip8
  | 0, _, c => .ok c
  | rem + 1, i, c =>
    let a := u16 (c.I + i)
    if a < 4096 then
      storeRegs rem (i + 1) { c with memory := upd c.memory a (c.V i) }
    else .error (.outOfBounds a c)

/-- Loop of FX65: `for i := uint16(0); i < x; i++ { V[i] = memory[I+i] }`.
Note the loop runs `x` times (indices `0 .. x-1`), as in the source. -/
def loadRegs : Nat → Nat → Chip8 → Except Err Chip8
  | 0, _, c => .ok c
  | rem + 1, i, c =>
    let a := u16 (c.I + i)
    if a < 4096 then
      loadRegs rem (i + 1) { c with V := upd c.V i (c.memory a) }
    else .error (.outOfBounds a c)

/-- The decode/execute dispatch of `Chip8.decodeOpcode`.  `randByte`
stands for the `rand.Intn(256)` draw of opcode CXNN; `keyPress` stands
for the result of `awaitKeyPress` in opcode FX0A: the pressed key index
and the key snapshot taken at the moment of the press. -/
def Chip8.decodeOpcode (randByte : Nat) (keyPress : Nat × (Nat → Bool))
    (opcode : Nat) (c : Chip8) : Except Err Chip8 :=
  let hi := opcode &&& 0xF000
  if hi = 0x0000 then
    let lo := opcode &&& 0x000F
    if lo = 0x0000 then
      -- 00E0: clear the screen
      .ok { c with gfx := fun _ => 0, drawFlag := true, pc := u16 (c.pc + 2) }
    else if lo = 0x000E then
      -- 00EE: return from a subroutine; `c.sp--` at sp = 0 wraps to 65535
      -- and the stack access then faults
      if c.sp = 0 then .error (.stackUnderflow c)
      else .ok { c with sp := c.sp - 1, pc := u16 (c.stack (c.sp - 1) + 2) }
    else .error (.unknownOpcode opcode c)
  else if hi = 0x1000 then
    -- 1NNN: jump
    .ok { c with pc := opcode &&& 0x0FFF }
  else if hi = 0x2000 then
    -- 2NNN: call; `c.stack[c.sp]` faults when sp is already 16
    if c.sp < 16 then
      .ok { c with stack := upd c.stack c.sp c.pc, sp := u16 (c.sp + 1),
                   pc := opcode &&& 0x0FFF }
    else .error (.stackOverflow c)
  else if hi = 0x3000 then
    -- 3XNN: skip next if V[X] == NN
    let x := (opcode &&& 0x0F00) >>> 8
    let c1 := if c.V x = (opcode &&& 0x00FF) then { c with pc := u16 (c.pc + 2) } else c
    .ok { c1 with pc := u16 (c1.pc + 2) }
  else if hi = 0x4000 then
    -- 4XNN: skip next if V[X] != NN
    let x := (opcode &&& 0x0F00) >>> 8
    let c1 := if c.V x ≠ (opcode &&& 0x00FF) then { c with pc := u16 (c.pc + 2) } else c
    .ok { c1 with pc := u16 (c1.pc + 2) }
  else if hi = 0x5000 then
    -- 5XY0: skip next if V[X] == V[Y]
    let x := (opcode &&& 0x0F00) >>> 8
    let y := (opcode &&& 0x00F0) >>> 4
    let c1 := if c.V x = c.V y then { c with pc := u16 (c.pc + 2) } else c
    .ok { c1 with pc := u16 (c1.pc + 2) }
  else if hi = 0x6000 then
    -- 6XNN: V[X] = NN
    let x := (opcode &&& 0x0F00) >>> 8
    .ok { c with V := upd c.V x (opcode &&& 0x00FF), pc := u16 (c.pc + 2) }
  else if hi = 0x7000 then
    -- 7XNN: V[X] += NN (wrapping byte add, carry flag unchanged)
    let x := (opcode &&& 0x0F00) >>> 8
    .ok { c with V := upd c.V x (byte (c.V x + (opcode &&& 0x00FF))),
                 pc := u16 (c.pc + 2) }
  else if hi = 0x8000 then
    let x := (opcode &&& 0x0F00) >>> 8
    let y := (opcode &&& 0x00F0) >>> 4
    let lo := opcode &&& 0x000F
    if lo = 0x0000 then
      -- 8XY0
      .ok { c with V := upd c.V x (c.V y), pc := u16 (c.pc + 2) }
    else if lo = 0x0001 then
      -- 8XY1
      .ok { c with V := upd c.V x (c.V x ||| c.V y), pc := u16 (c.pc + 2) }
    else if lo = 0x0002 then
      -- 8XY2
      .ok { c with V := upd c.V x (c.V x &&& c.V y), pc := u16 (c.pc + 2) }
    else if lo = 0x0003 then
      -- 8XY3
      .ok { c with V := upd c.V x (c.V x ^^^ c.V y), pc := u16 (c.pc + 2) }
    else if lo = 0x0004 then
      -- 8XY4: VF is written first, then the add reads the registers again
      let vf := if c.V y > 255 - c.V x then 1 else 0
      let c1 := { c with V := upd c.V 15 vf }
      .ok { c1 with V := upd c1.V x (byte (c1.V x + c1.V y)),
                    pc := u16 (c1.pc + 2) }
    else if lo = 0x0005 then
      -- 8XY5: in the source the borrow test is `vx - vy < 0` on unsigned
      -- bytes, which is never true, so VF is always assigned 0
      let vx := c.V x
      let vy := c.V y
      let vf := if byteSub vx vy < 0 then 1 else 0
      let c1 := { c with V := upd c.V 15 vf }
      .ok { c1 with V := upd c1.V x (byteSub vx vy), pc := u16 (c1.pc + 2) }
    else if lo = 0x0006 then
      -- 8XY6: in the source VF is assigned `V[X] & 0x0000000F` (the low
      -- nibble, not the single least significant bit)
      let c1 := { c with V := upd c.V 15 (c.V x &&& 0x0000000F) }
      .ok { c1 with V := upd c1.V x (c1.V x >>> 1), pc := u16 (c1.pc + 2) }
    else if lo = 0x0007 then
      -- 8XY7: in the source the borrow test `vy - vx < 0` is never true,
      -- so VF is always assigned 1, and the result is stored into V[Y]
      let vx := c.V x
      let vy := c.V y
      let vf := if byteSub vy vx < 0 then 0 else 1
      let c1 := { c with V := upd c.V 15 vf }
      .ok { c1 with V := upd c1.V y (byteSub vy vx), pc := u16 (c1.pc + 2) }
    else if lo = 0x000E then
      -- 8XYE
      let c1 := { c with V := upd c.V 15 (c.V x >>> 7) }
      .ok { c1 with V := upd c1.V x (byte (c1.V x <<< 1)),
                    pc := u16 (c1.pc + 2) }
    else .error (.unknownOpcode opcode c)
  else if hi = 0x9000 then
    -- 9XY0: skip next if V[X] != V[Y]
    let x := (opcode &&& 0x0F00) >>> 8
    let y := (opcode &&& 0x00F0) >>> 4
    let c1 := if c.V x ≠ c.V y then { c with pc := u16 (c.pc + 2) } else c
    .ok { c1 with pc := u16 (c1.pc + 2) }
  else if hi = 0xA000 then
    -- ANNN
    .ok { c with I := opcode &&& 0x0FFF, pc := u16 (c.pc + 2) }
  else if hi = 0xB000 then
    -- BNNN
    .ok { c with pc := u16 ((opcode &&& 0x0FFF) + c.V 0) }
  else if hi = 0xC000 then
    -- CXNN
    let x := (opcode &&& 0x0F00) >>> 8
    .ok { c with V := upd c.V x (byte randByte &&& (opcode &&& 0x00FF)),
                 pc := u16 (c.pc + 2) }
  else if hi = 0xD000 then
    -- DXYN: sprite draw
    let x := c.V ((opcode &&& 0x0F00) >>> 8)
    let y := c.V ((opcode &&& 0x00F0) >>> 4)
    let height := opcode &&& 0x000F
    let c0 := { c with V := upd c.V 15 0 }
    match drawRows x y height 0 c0 with
    | .ok c1 => .ok { c1 with drawFlag := true, pc := u16 (c1.pc + 2) }
    | .error e => .error e
  else if hi = 0xE000 then
    let lo := opcode &&& 0x00FF
    let x := (opcode &&& 0x0F00) >>> 8
    if lo = 0x009E then
      -- EX9E (the source indexes keys by X itself)
      let c1 := if c.keys x then { c with pc := u16 (c.pc + 2) } else c
      .ok { c1 with pc := u16 (c1.pc + 2) }
    else if lo = 0x00A1 then
      -- EXA1
      let c1 := if !(c.keys x) then { c with pc := u16 (c.pc + 2) } else c
      .ok { c1 with pc := u16 (c1.pc + 2) }
    else .error (.unknownOpcode opcode c)
  else if hi = 0xF000 then
    let lo := opcode &&& 0x00FF
    let x := (opcode &&& 0x0F00) >>> 8
    if lo = 0x0007 then
      -- FX07
      .ok { c with V := upd c.V x c.delayTimer, pc := u16 (c.pc + 2) }
    else if lo = 0x000A then
      -- FX0A: awaitKeyPress also replaces the key snapshot
      .ok { c with V := upd c.V x keyPress.1, keys := keyPress.2,
                   pc := u16 (c.pc + 2) }
    else if lo = 0x0015 then
      -- FX15
      .ok { c with delayTimer := c.V x, pc := u16 (c.pc + 2) }
    else if lo = 0x0018 then
      -- FX18
      .ok { c with soundTimer := c.V x, pc := u16 (c.pc + 2) }
    else if lo = 0x001E then
      -- FX1E
      .ok { c with I := u16 (c.I + c.V x), pc := u16 (c.pc + 2) }
    else if lo = 0x0029 then
      -- FX29: the source multiplies in uint8 before widening
      .ok { c with I := byte (c.V x * 5), pc := u16 (c.pc + 2) }
    else if lo = 0x0033 then
      -- FX33: three sequential memory writes, each bounds checked
      if c.I < 4096 then
        let c1 := { c with memory := upd c.memory c.I (c.V x / 100) }
        if u16 (c1.I + 1) < 4096 then
          let c2 := { c1 with
            memory := upd c1.memory (u16 (c1.I + 1)) ((c1.V x / 10) % 10) }
          if u16 (c2.I + 2) < 4096 then
            .ok { c2 with
              memory := upd c2.memory (u16 (c2.I + 2)) ((c2.V x % 100) % 10),
              pc := u16 (c2.pc + 2) }
          else .error (.outOfBounds (u16 (c2.I + 2)) c2)
        else .error (.outOfBounds (u16 (c1.I + 1)) c1)
      else .error (.outOfBounds c.I c)
    else if lo = 0x0055 then
      -- FX55: then `c.I += x + 1` as in the later draft of the source
      match storeRegs x 0 c with
      | .ok c1 => .ok { c1 with I := u16 (c1.I + x + 1), pc := u16 (c1.pc + 2) }
      | .error e => .error e
    else if lo = 0x0065 then
      -- FX65: then `c.I += x + 1` as in the later draft of the source
      match loadRegs x 0 c with
      | .ok c1 => .ok { c1 with I := u16 (c1.I + x + 1), pc := u16 (c1.pc + 2) }
      | .error e => .error e
    else .error (.unknownOpcode opcode c)
  else .error (.unknownOpcode opcode c)

/-- Fetch: big-endian combination of `memory[pc]` and `memory[pc+1]`. -/
def Chip8.fetchOpcode (c : Chip8) : Except Err Nat :=
  if c.pc < 4096 then
    let a2 := u16 (c.pc + 1)
    if a2 < 4096 then .ok (c.memory c.pc * 256 + c.memory a2)
    else .error (.outOfBounds a2 c)
  else .error (.outOfBounds c.pc c)

/-- One emulation cycle: fetch, decode/execute, consume the draw flag,
refresh the key snapshot, then decrement each nonzero timer.  The
rendering and the terminal beep are pure output and carry no state
beyond the draw flag reset. -/
def Chip8.EmulateCycle (keysNow : Nat → Bool) (randByte : Nat)
    (keyPress : Nat × (Nat → Bool)) (c : Chip8) : Except Err Chip8 :=
  match c.fetchOpcode with
  | .error e => .error e
  | .ok opcode =>
    match c.decodeOpcode randByte keyPress opcode with
    | .error e => .error e
    | .ok c1 =>
      let c2 := if c1.drawFlag then { c1 with drawFlag := false } else c1
      let c3 := { c2 with keys := keysNow }
      let c4 := if c3.delayTimer > 0 then { c3 with delayTimer := c3.delayTimer - 1 } else c3
      let c5 := if c4.soundTimer > 0 then { c4 with soundTimer := c4.soundTimer - 1 } else c4
      .ok c5

/-! ## Concrete states used to evaluate the code on failing inputs -/

/-- No randomness and no pending key press, for opcodes that use neither. -/
def noKey : Nat × (Nat → Bool) := (0, fun _ => false)

/-- A state with V0 = 5, V1 = 3 and everything else zeroed. -/
def subState : Chip8 :=
  { I := 0, pc := 0x200, memory := fun _ => 0,
    V := fun r => if r = 0 then 5 else if r = 1 then 3 else 0,
    gfx := fun _ => 0, drawFlag := false, stack := fun _ => 0, sp := 0,
    delayTimer := 0, soundTimer := 0, keys := fun _ => false }

/-- A state with I = 0x300, V0 = 170, V1 = 187 and zeroed memory. -/
def fx55State : Chip8 :=
  { I := 0x300, pc := 0x200, memory := fun _ => 0,
    V := fun r => if r = 0 then 170 else if r = 1 then 187 else 0,
    gfx := fun _ => 0, drawFlag := false, stack := fun _ => 0, sp := 0,
    delayTimer := 0, soundTimer := 0, keys := fun _ => false }

/-- A state with I = 0x300, memory[0x300] = 170, memory[0x301] = 187 and
zeroed registers. -/
def fx65State : Chip8 :=
  { I := 0x300, pc := 0x200,
    memory := fun a => if a = 0x300 then 170 else if a = 0x301 then 187 else 0,
    V := fun _ => 0,
    gfx := fun _ => 0, drawFlag := false, stack := fun _ => 0, sp := 0,
    delayTimer := 0, soundTimer := 0, keys := fun _ => false }

/-- C1: evaluation of opcode 8XY5 (here 0x8015, X = 0, Y = 1) at
V[X] = 5, V[Y] = 3.  The claim requires VF = 1 (no borrow, since
5 ≥ 3), but the code leaves VF = 0: its borrow test `vx - vy < 0`
compares an unsigned byte against 0 and is never true, so the
VF = 1 branch is dead and VF is always assigned 0.  The result
register does receive (5 - 3) mod 256 = 2 as the claim states. -/
theorem c1_8xy5_vf_always_zero :
    (Chip8.decodeOpcode 0 noKey 0x8015 subState).toOption.map
      (fun s => (s.V 0, s.V 15)) = some (2, 0) := by
  rfl

/-- C2: evaluation of opcode 8XY7 (here 0x8017, X = 0, Y = 1) at
V[X] = 5, V[Y] = 3.  The claim requires V[X] = (3 - 5) mod 256 = 254,
V[Y] unchanged at 3, and VF = 0 (borrow, since V[Y] < V[X]).  The code
instead stores the difference into V[Y] (leaving V[X] = 5, V[Y] = 254)
and always sets VF = 1, since its borrow test `vy - vx < 0` on unsigned
bytes is never true. -/
theorem c2_8xy7_stores_into_vy :
    (Chip8.decodeOpcode 0 noKey 0x8017 subState).toOption.map
      (fun s => (s.V 0, s.V 1, s.V 15)) = some (5, 254, 1) := by
  rfl

/-- C3: evaluation of FX55 (0xF155, X = 1) at I = 0x300, V0 = 170,
V1 = 187, and of FX65 (0xF165, X = 1) at I = 0x300,
memory[0x300] = 170, memory[0x301] = 187.  The claim requires X + 1 = 2
bytes transferred and I unchanged at 0x300.  The code loop `i < x` runs
only X = 1 times, so memory[0x301] stays 0 (resp. V1 stays 0), and the
later source draft then performs `I += x + 1`, leaving I = 0x302. -/
theorem c3_fx55_fx65_off_by_one :
    (Chip8.decodeOpcode 0 noKey 0xF155 fx55State).toOption.map
      (fun s => (s.memory 0x300, s.memory 0x301, s.I)) = some (170, 0, 0x302)
    ∧ (Chip8.decodeOpcode 0 noKey 0xF165 fx65State).toOption.map
      (fun s => (s.V 0, s.V 1, s.I)) = some (170, 0, 0x302) := by
  exact ⟨rfl, rfl⟩

/-- C4: evaluation of opcode 8XY6 (here 0x8006, X = 0) at V[X] = 5.
The claim requires VF = 1 (the least significant bit of 5) and then
V[X] = 2.  The code computes VF as `V[X] & 0x0000000F`, the whole low
nibble, so VF = 5 instead of 1; the shifted result V[X] = 2 is as
claimed. -/
theorem c4_8xy6_vf_low_nibble :
    (Chip8.decodeOpcode 0 noKey 0x8006 subState).toOption.map
      (fun s => (s.V 0, s.V 15)) = some (2, 5) := by
  rfl

/-! ## Opcode field extraction -/

/-- Field extraction for opcodes of the 0x8000 family written as
`0x8000 + x*256 + y*16 + n` with nibbles `x`, `y`, `n`. -/
theorem mask8 : ∀ x < 16, ∀ y < 16, ∀ n < 16,
    (0x8000 + x * 256 + y * 16 + n) &&& 0xF000 = 0x8000
    ∧ ((0x8000 + x * 256 + y * 16 + n) &&& 0x0F00) >>> 8 = x
    ∧ ((0x8000 + x * 256 + y * 16 + n) &&& 0x00F0) >>> 4 = y
    ∧ (0x8000 + x * 256 + y * 16 + n) &&& 0x000F = n := by
  decide

/-- A state with V0 = 200, V1 = 100 and everything else zeroed. -/
def addState : Chip8 :=
  { I := 0, pc := 0x200, memory := fun _ => 0,
    V := fun r => if r = 0 then 200 else if r = 1 then 100 else 0,
    gfx := fun _ => 0, drawFlag := false, stack := fun _ => 0, sp := 0,
    delayTimer := 0, soundTimer := 0, keys := fun _ => false }

/-- C5: for every pair of byte values in V[X] and V[Y] (X, Y ≠ 0xF),
opcode 8XY4 stores (V[X] + V[Y]) mod 256 into V[X] and sets VF to 1
exactly when the unsigned sum exceeds 255, leaving all other registers
unchanged. -/
theorem c5_8xy4_add_carry (randByte : Nat) (keyPress : Nat × (Nat → Bool))
    (s : Chip8) (x y : Nat)
    (hx : x < 16) (hy : y < 16) (hxF : x ≠ 15) (hyF : y ≠ 15)
    (hvx : s.V x < 256) (hvy : s.V y < 256) :
    ∃ t, Chip8.decodeOpcode randByte keyPress (0x8000 + x * 256 + y * 16 + 4) s = .ok t
      ∧ t.V x = (s.V x + s.V y) % 256
      ∧ t.V 15 = (if 255 < s.V x + s.V y then 1 else 0)
      ∧ (∀ r, r ≠ x → r ≠ 15 → t.V r = s.V r) := by
  obtain ⟨h1, h2, h3, h4⟩ := mask8 x hx y hy 4 (by decide)
  simp only [Chip8.decodeOpcode]
  rw [h1, h2, h3, h4]
  norm_num
  refine ⟨?_, ?_, ?_⟩
  · rw [upd_other _ _ _ _ hxF, upd_other _ _ _ _ hyF]
    rfl
  · rw [upd_other _ _ _ _ (fun h => hxF h.symm), upd_same]
    rcases Nat.lt_or_ge 255 (s.V x + s.V y) with h | h
    · rw [if_pos (by omega), if_pos h]
    · rw [if_neg (by omega), if_neg (by omega)]
  · intro r hrx hr15
    rw [upd_other _ _ _ _ hrx, upd_other _ _ _ _ hr15]

/-- Witness for C5 at X = 0, Y = 1, V0 = 200, V1 = 100: the sum 300
overflows, so V0 becomes 44 and VF becomes 1. -/
theorem c5_8xy4_add_carry_witness :
    ((0 : Nat) < 16 ∧ (1 : Nat) < 16 ∧ (0 : Nat) ≠ 15 ∧ (1 : Nat) ≠ 15
      ∧ addState.V 0 < 256 ∧ addState.V 1 < 256)
    ∧ ∃ t, Chip8.decodeOpcode 0 noKey (0x8000 + 0 * 256 + 1 * 16 + 4) addState = .ok t
      ∧ t.V 0 = (addState.V 0 + addState.V 1) % 256
      ∧ t.V 15 = (if 255 < addState.V 0 + addState.V 1 then 1 else 0)
      ∧ (∀ r, r ≠ 0 → r ≠ 15 → t.V r = addState.V r) :=
  ⟨⟨by decide, by decide, by decide, by decide, by decide, by decide⟩,
   c5_8xy4_add_carry 0 noKey addState 0 1 (by decide) (by decide) (by decide)
     (by decide) (by decide) (by decide)⟩

/-- Field extraction for call opcodes, split into high and low operand
parts so the bounded check recursion stays shallow. -/
theorem mask2Nibbles : ∀ a < 16, ∀ b < 256,
    (0x2000 + (a * 256 + b)) &&& 0xF000 = 0x2000
    ∧ (0x2000 + (a * 256 + b)) &&& 0x0FFF = a * 256 + b := by
  decide

/-- Field extraction for call opcodes written as `0x2000 + nnn` with
`nnn < 4096`. -/
theorem mask2 (nnn : Nat) (h : nnn < 4096) :
    (0x2000 + nnn) &&& 0xF000 = 0x2000
    ∧ (0x2000 + nnn) &&& 0x0FFF = nnn := by
  have hd : nnn / 256 < 16 := by omega
  have hm : nnn % 256 < 256 := Nat.mod_lt _ (by omega)
  have he : nnn / 256 * 256 + nnn % 256 = nnn := by omega
  have hx := mask2Nibbles (nnn / 256) hd (nnn % 256) hm
  rw [he] at hx
  exact hx

/-- C6: a call 2NNN at any stack depth below 16 pushes the address of
the call instruction and jumps to NNN, and a later 00EE executed in any
state that still holds that frame (same depth, same saved slot) sets PC
to the call address plus 2; a call attempted when the stack pointer is
already 16 is the StackOverflow fault (the write `stack[sp]` is out of
range). -/
theorem c6_call_then_return (randByte : Nat) (keyPress : Nat × (Nat → Bool))
    (s : Chip8) (nnn : Nat) (hnnn : nnn < 4096) (hpc : s.pc + 2 < 65536) :
    (s.sp < 16 →
      Chip8.decodeOpcode randByte keyPress (0x2000 + nnn) s =
        .ok { s with stack := upd s.stack s.sp s.pc, sp := s.sp + 1, pc := nnn }
      ∧ ∀ t : Chip8, t.sp = s.sp + 1 → t.stack s.sp = s.pc →
        Chip8.decodeOpcode randByte keyPress 0x00EE t =
          .ok { t with sp := s.sp, pc := s.pc + 2 })
    ∧ (s.sp = 16 →
      Chip8.decodeOpcode randByte keyPress (0x2000 + nnn) s =
        .error (.stackOverflow s)) := by
  obtain ⟨h1, h2⟩ := mask2 nnn hnnn
  have e0 : (0x00EE : Nat) &&& 0xF000 = 0 := by decide
  have e1 : (0x00EE : Nat) &&& 0x000F = 14 := by decide
  constructor
  · intro hsp
    constructor
    · simp only [Chip8.decodeOpcode]
      rw [h1, h2,
        if_neg (show (0x2000 : Nat) ≠ 0x0000 by decide),
        if_neg (show (0x2000 : Nat) ≠ 0x1000 by decide),
        if_pos (show (0x2000 : Nat) = 0x2000 from rfl),
        if_pos hsp, u16_small (by omega)]
    · intro t ht hslot
      simp only [Chip8.decodeOpcode]
      rw [e0, e1,
        if_pos (show (0 : Nat) = 0 from rfl),
        if_neg (show (14 : Nat) ≠ 0 by decide),
        if_pos (show (14 : Nat) = 14 from rfl),
        if_neg (show ¬ t.sp = 0 by omega), ht, Nat.add_sub_cancel, hslot,
        u16_small hpc]
  · intro hsp
    simp only [Chip8.decodeOpcode]
    rw [h1,
      if_neg (show (0x2000 : Nat) ≠ 0x0000 by decide),
      if_neg (show (0x2000 : Nat) ≠ 0x1000 by decide),
      if_pos (show (0x2000 : Nat) = 0x2000 from rfl),
      if_neg (show ¬ s.sp < 16 by omega)]

/-- The state reached from `subState` by the call `0x2300`. -/
def afterCall : Chip8 :=
  { subState with stack := upd subState.stack subState.sp subState.pc,
                  sp := subState.sp + 1, pc := 0x300 }

/-- A state whose call stack is full (stack pointer 16). -/
def fullStack : Chip8 := { subState with sp := 16 }

/-- Witness for C6: from `subState` (sp = 0, pc = 0x200) the call 0x2300
succeeds and the return from `afterCall` restores pc = 0x202; from
`fullStack` (sp = 16) the same call is the StackOverflow fault. -/
theorem c6_call_then_return_witness :
    ((0x300 : Nat) < 4096 ∧ subState.pc + 2 < 65536 ∧ subState.sp < 16
      ∧ fullStack.sp = 16)
    ∧ Chip8.decodeOpcode 0 noKey (0x2000 + 0x300) subState =
        .ok { subState with stack := upd subState.stack subState.sp subState.pc,
                            sp := subState.sp + 1, pc := 0x300 }
    ∧ Chip8.decodeOpcode 0 noKey 0x00EE afterCall =
        .ok { afterCall with sp := subState.sp, pc := subState.pc + 2 }
    ∧ Chip8.decodeOpcode 0 noKey (0x2000 + 0x300) fullStack =
        .error (.stackOverflow fullStack) :=
  ⟨⟨by decide, by decide, by decide, by decide⟩,
   ((c6_call_then_return 0 noKey subState 0x300 (by decide) (by decide)).1
      (by decide)).1,
   ((c6_call_then_return 0 noKey subState 0x300 (by decide) (by decide)).1
      (by decide)).2 afterCall rfl (by decide),
   (c6_call_then_return 0 noKey fullStack 0x300 (by decide) (by decide)).2 rfl⟩

/-- The decode of the unmatched opcode word 0xFFFF: every dispatch
pattern fails and the final default is the UnknownOpcode fault, reached
before any state component is written. -/
theorem decodeOpcode_FFFF (randByte : Nat) (keyPress : Nat × (Nat → Bool))
    (s : Chip8) :
    Chip8.decodeOpcode randByte keyPress 0xFFFF s =
      .error (.unknownOpcode 0xFFFF s) := by
  simp only [Chip8.decodeOpcode]
  rw [if_neg (show ¬ (0xFFFF : Nat) &&& 0xF000 = 0x0000 by decide),
    if_neg (show ¬ (0xFFFF : Nat) &&& 0xF000 = 0x1000 by decide),
    if_neg (show ¬ (0xFFFF : Nat) &&& 0xF000 = 0x2000 by decide),
    if_neg (show ¬ (0xFFFF : Nat) &&& 0xF000 = 0x3000 by decide),
    if_neg (show ¬ (0xFFFF : Nat) &&& 0xF000 = 0x4000 by decide),
    if_neg (show ¬ (0xFFFF : Nat) &&& 0xF000 = 0x5000 by decide),
    if_neg (show ¬ (0xFFFF : Nat) &&& 0xF000 = 0x6000 by decide),
    if_neg (show ¬ (0xFFFF : Nat) &&& 0xF000 = 0x7000 by decide),
    if_neg (show ¬ (0xFFFF : Nat) &&& 0xF000 = 0x8000 by decide),
    if_neg (show ¬ (0xFFFF : Nat) &&& 0xF000 = 0x9000 by decide),
    if_neg (show ¬ (0xFFFF : Nat) &&& 0xF000 = 0xA000 by decide),
    if_neg (show ¬ (0xFFFF : Nat) &&& 0xF000 = 0xB000 by decide),
    if_neg (show ¬ (0xFFFF : Nat) &&& 0xF000 = 0xC000 by decide),
    if_neg (show ¬ (0xFFFF : Nat) &&& 0xF000 = 0xD000 by decide),
    if_neg (show ¬ (0xFFFF : Nat) &&& 0xF000 = 0xE000 by decide),
    if_pos (show (0xFFFF : Nat) &&& 0xF000 = 0xF000 by decide),
    if_neg (show ¬ (0xFFFF : Nat) &&& 0x00FF = 0x0007 by decide),
    if_neg (show ¬ (0xFFFF : Nat) &&& 0x00FF = 0x000A by decide),
    if_neg (show ¬ (0xFFFF : Nat) &&& 0x00FF = 0x0015 by decide),
    if_neg (show ¬ (0xFFFF : Nat) &&& 0x00FF = 0x0018 by decide),
    if_neg (show ¬ (0xFFFF : Nat) &&& 0x00FF = 0x001E by decide),
    if_neg (show ¬ (0xFFFF : Nat) &&& 0x00FF = 0x0029 by decide),
    if_neg (show ¬ (0xFFFF : Nat) &&& 0x00FF = 0x0033 by decide),
    if_neg (show ¬ (0xFFFF : Nat) &&& 0x00FF = 0x0055 by decide),
    if_neg (show ¬ (0xFFFF : Nat) &&& 0x00FF = 0x0065 by decide)]

/-- C7: a cycle whose fetched opcode word is 0xFFFF (an unmatched
pattern) is the UnknownOpcode fault carrying the offending 16-bit value
and the machine state exactly as it was before the cycle: no register,
memory, stack, framebuffer, flag or timer write happens first. -/
theorem c7_unknown_opcode (keysNow : Nat → Bool) (randByte : Nat)
    (keyPress : Nat × (Nat → Bool)) (s : Chip8)
    (hpc : s.pc + 1 < 4096)
    (hm0 : s.memory s.pc = 0xFF) (hm1 : s.memory (s.pc + 1) = 0xFF) :
    Chip8.EmulateCycle keysNow randByte keyPress s =
      .error (.unknownOpcode 0xFFFF s) := by
  simp only [Chip8.EmulateCycle, Chip8.fetchOpcode]
  rw [u16_small (by omega)]
  rw [if_pos (show s.pc < 4096 by omega), if_pos hpc, hm0, hm1]
  norm_num
  rw [decodeOpcode_FFFF]

/-- A state holding the opcode bytes FF FF at the program counter. -/
def ffState : Chip8 :=
  { I := 0, pc := 0x200, memory := fun _ => 0xFF, V := fun _ => 0,
    gfx := fun _ => 0, drawFlag := false, stack := fun _ => 0, sp := 0,
    delayTimer := 0, soundTimer := 0, keys := fun _ => false }

/-- Witness for C7 at `ffState`. -/
theorem c7_unknown_opcode_witness :
    (ffState.pc + 1 < 4096 ∧ ffState.memory ffState.pc = 0xFF
      ∧ ffState.memory (ffState.pc + 1) = 0xFF)
    ∧ Chip8.EmulateCycle (fun _ => false) 0 noKey ffState =
        .error (.unknownOpcode 0xFFFF ffState) :=
  ⟨⟨by decide, by decide, by decide⟩,
   c7_unknown_opcode (fun _ => false) 0 noKey ffState (by decide) (by decide)
     (by decide)⟩

/-- C9: in every cycle that completes, after the opcode has executed
each of the two timers that is then nonzero is decremented by exactly 1
and a timer that is 0 stays 0; in particular neither timer ever
increases during the timer step, so no sequence of cycles drives one
below 0. -/
theorem c9_timers (keysNow : Nat → Bool) (randByte : Nat)
    (keyPress : Nat × (Nat → Bool)) (s s1 : Chip8) (op : Nat)
    (hf : s.fetchOpcode = .ok op)
    (hd : Chip8.decodeOpcode randByte keyPress op s = .ok s1) :
    ∃ t, Chip8.EmulateCycle keysNow randByte keyPress s = .ok t
      ∧ t.delayTimer = (if s1.delayTimer = 0 then 0 else s1.delayTimer - 1)
      ∧ t.soundTimer = (if s1.soundTimer = 0 then 0 else s1.soundTimer - 1)
      ∧ t.delayTimer ≤ s1.delayTimer ∧ t.soundTimer ≤ s1.soundTimer := by
  simp only [Chip8.EmulateCycle, hf, hd]
  refine ⟨_, rfl, ?_, ?_, ?_, ?_⟩ <;> split_ifs <;> simp_all

/-- A state with zeroed memory (opcode 0000 decodes as 00E0) and
delay timer 5. -/
def cycleState : Chip8 :=
  { I := 0, pc := 0x200, memory := fun _ => 0, V := fun _ => 0,
    gfx := fun _ => 0, drawFlag := false, stack := fun _ => 0, sp := 0,
    delayTimer := 5, soundTimer := 0, keys := fun _ => false }

/-- The state `cycleState` reaches after decoding opcode 0000 (00E0). -/
def cycleState1 : Chip8 :=
  { cycleState with gfx := fun _ => 0, drawFlag := true, pc := 514 }

/-- Witness for C9 at `cycleState`: the delay timer 5 becomes 4 and the
sound timer stays 0. -/
theorem c9_timers_witness :
    (cycleState.fetchOpcode = .ok 0
      ∧ Chip8.decodeOpcode 0 noKey 0 cycleState = .ok cycleState1)
    ∧ ∃ t, Chip8.EmulateCycle (fun _ => false) 0 noKey cycleState = .ok t
      ∧ t.delayTimer = (if cycleState1.delayTimer = 0 then 0 else cycleState1.delayTimer - 1)
      ∧ t.soundTimer = (if cycleState1.soundTimer = 0 then 0 else cycleState1.soundTimer - 1)
      ∧ t.delayTimer ≤ cycleState1.delayTimer ∧ t.soundTimer ≤ cycleState1.soundTimer :=
  ⟨⟨rfl, rfl⟩,
   c9_timers (fun _ => false) 0 noKey cycleState cycleState1 0 rfl rfl⟩

/-! ## Characterisation of the sprite draw loops -/

/-- Specification of which pixels one sprite row toggles: column scan
from `xline` with `rem` iterations left, mirroring the column loop. -/
def colToggles (xc yr pixel : Nat) : Nat → Nat → Nat → Bool
  | 0, _, _ => false
  | rem + 1, xline, i =>
    ((pixel &&& (0x80 >>> xline) != 0) && (i == xc + xline + yr * 64))
      || colToggles xc yr pixel rem (xline + 1) i

/-- Specification of whether one sprite row detects a collision against
the framebuffer `g`. -/
def colCollides (xc yr pixel : Nat) (g : Nat → Nat) : Nat → Nat → Bool
  | 0, _ => false
  | rem + 1, xline =>
    ((pixel &&& (0x80 >>> xline) != 0) && (g (xc + xline + yr * 64) == 1))
      || colCollides xc yr pixel g rem (xline + 1)

/-- Specification of which pixels the whole sprite toggles: row scan
from `yline` with `rem` rows left, sprite bytes read at `mem (ir + row)`. -/
def rowToggles (mem : Nat → Nat) (ir xc yc : Nat) : Nat → Nat → Nat → Bool
  | 0, _, _ => false
  | rem + 1, yline, i =>
    colToggles xc (yc + yline) (mem (ir + yline)) 8 0 i
      || rowToggles mem ir xc yc rem (yline + 1) i

/-- Specification of whether the whole sprite detects a collision
against the framebuffer `g`. -/
def rowCollides (mem : Nat → Nat) (ir xc yc : Nat) (g : Nat → Nat) : Nat → Nat → Bool
  | 0, _ => false
  | rem + 1, yline =>
    colCollides xc (yc + yline) (mem (ir + yline)) g 8 0
      || rowCollides mem ir xc yc g rem (yline + 1)

theorem colToggles_out (xc yr pixel : Nat) :
    ∀ rem xline i, (∀ j, xline ≤ j → j < xline + rem → i ≠ xc + j + yr * 64) →
    colToggles xc yr pixel rem xline i = false := by
  intro rem
  induction rem with
  | zero => intro xline i _; rfl
  | succ rem ih =>
    intro xline i h
    have h1 : i ≠ xc + xline + yr * 64 := h xline le_rfl (by omega)
    have h2 := ih (xline + 1) i (fun j hj1 hj2 => h j (by omega) (by omega))
    simp [colToggles, h1, h2]

theorem colToggles_sound (xc yr pixel : Nat) :
    ∀ rem xline i, colToggles xc yr pixel rem xline i = true →
    ∃ j, xline ≤ j ∧ j < xline + rem ∧ i = xc + j + yr * 64 := by
  intro rem
  induction rem with
  | zero => intro xline i h; simp [colToggles] at h
  | succ rem ih =>
    intro xline i h
    simp only [colToggles, Bool.or_eq_true, Bool.and_eq_true] at h
    rcases h with ⟨_, heq⟩ | h
    · exact ⟨xline, le_rfl, by omega, by simpa using heq⟩
    · obtain ⟨j, hj1, hj2, hj3⟩ := ih (xline + 1) i h
      exact ⟨j, by omega, by omega, hj3⟩

theorem colToggles_complete (xc yr pixel : Nat) :
    ∀ rem xline j, xline ≤ j → j < xline + rem → pixel &&& (0x80 >>> j) ≠ 0 →
    colToggles xc yr pixel rem xline (xc + j + yr * 64) = true := by
  intro rem
  induction rem with
  | zero => intro xline j h1 h2 _; omega
  | succ rem ih =>
    intro xline j h1 h2 hbit
    simp only [colToggles, Bool.or_eq_true]
    by_cases hj : j = xline
    · subst hj
      left
      simp [hbit]
    · right
      exact ih (xline + 1) j (by omega) (by omega) hbit

theorem colCollides_congr (xc yr pixel : Nat) :
    ∀ rem xline (g g' : Nat → Nat),
    (∀ j, xline ≤ j → j < xline + rem → g (xc + j + yr * 64) = g' (xc + j + yr * 64)) →
    colCollides xc yr pixel g rem xline = colCollides xc yr pixel g' rem xline := by
  intro rem
  induction rem with
  | zero => intros; rfl
  | succ rem ih =>
    intro xline g g' h
    simp only [colCollides]
    rw [h xline le_rfl (by omega),
      ih (xline + 1) g g' (fun j hj1 hj2 => h j (by omega) (by omega))]

theorem colCollides_complete (xc yr pixel : Nat) (g : Nat → Nat) :
    ∀ rem xline j, xline ≤ j → j < xline + rem →
    pixel &&& (0x80 >>> j) ≠ 0 → g (xc + j + yr * 64) = 1 →
    colCollides xc yr pixel g rem xline = true := by
  intro rem
  induction rem with
  | zero => intro xline j h1 h2 _ _; omega
  | succ rem ih =>
    intro xline j h1 h2 hbit hg
    simp only [colCollides, Bool.or_eq_true]
    by_cases hj : j = xline
    · subst hj
      left
      simp [hbit, hg]
    · right
      exact ih (xline + 1) j (by omega) (by omega) hbit hg

theorem colCollides_zero (xc yr pixel : Nat) (g : Nat → Nat)
    (hg : ∀ i, g i = 0) :
    ∀ rem xline, colCollides xc yr pixel g rem xline = false := by
  intro rem
  induction rem with
  | zero => intro _; rfl
  | succ rem ih =>
    intro xline
    simp [colCollides, hg, ih]

theorem rowToggles_out (mem : Nat → Nat) (ir xc yc : Nat) :
    ∀ rem yline i j yb, j < 8 → i = xc + j + yb * 64 → yb < yc + yline →
    rowToggles mem ir xc yc rem yline i = false := by
  intro rem
  induction rem with
  | zero => intros; rfl
  | succ rem ih =>
    intro yline i j yb hj hi hyb
    simp only [rowToggles, Bool.or_eq_false_iff]
    constructor
    · apply colToggles_out
      intro j' hj1 hj2
      subst hi
      omega
    · exact ih (yline + 1) i j yb hj hi (by omega)

theorem rowToggles_complete (mem : Nat → Nat) (ir xc yc : Nat) :
    ∀ rem yline r j, yline ≤ r → r < yline + rem → j < 8 →
    mem (ir + r) &&& (0x80 >>> j) ≠ 0 →
    rowToggles mem ir xc yc rem yline (xc + j + (yc + r) * 64) = true := by
  intro rem
  induction rem with
  | zero => intro yline r j h1 h2 _ _; omega
  | succ rem ih =>
    intro yline r j h1 h2 hj hbit
    simp only [rowToggles, Bool.or_eq_true]
    by_cases hr : r = yline
    · subst hr
      left
      exact colToggles_complete xc (yc + r) (mem (ir + r)) 8 0 j (by omega) (by omega) hbit
    · right
      exact ih (yline + 1) r j (by omega) (by omega) hj hbit

theorem rowCollides_congr (mem : Nat → Nat) (ir xc yc : Nat) :
    ∀ rem yline (g g' : Nat → Nat),
    (∀ j yb, j < 8 → yc + yline ≤ yb → g (xc + j + yb * 64) = g' (xc + j + yb * 64)) →
    rowCollides mem ir xc yc g rem yline = rowCollides mem ir xc yc g' rem yline := by
  intro rem
  induction rem with
  | zero => intros; rfl
  | succ rem ih =>
    intro yline g g' h
    simp only [rowCollides]
    rw [colCollides_congr xc (yc + yline) (mem (ir + yline)) 8 0 g g'
        (fun j hj1 hj2 => h j (yc + yline) (by omega) le_rfl),
      ih (yline + 1) g g' (fun j yb hj hyb => h j yb hj (by omega))]

theorem rowCollides_complete (mem : Nat → Nat) (ir xc yc : Nat) (g : Nat → Nat) :
    ∀ rem yline r, yline ≤ r → r < yline + rem →
    colCollides xc (yc + r) (mem (ir + r)) g 8 0 = true →
    rowCollides mem ir xc yc g rem yline = true := by
  intro rem
  induction rem with
  | zero => intro yline r h1 h2 _; omega
  | succ rem ih =>
    intro yline r h1 h2 hcol
    simp only [rowCollides, Bool.or_eq_true]
    by_cases hr : r = yline
    · subst hr
      exact Or.inl hcol
    · exact Or.inr (ih (yline + 1) r (by omega) (by omega) hcol)

theorem rowCollides_zero (mem : Nat → Nat) (ir xc yc : Nat) (g : Nat → Nat)
    (hg : ∀ i, g i = 0) :
    ∀ rem yline, rowCollides mem ir xc yc g rem yline = false := by
  intro rem
  induction rem with
  | zero => intro _; rfl
  | succ rem ih =>
    intro yline
    simp [rowCollides, colCollides_zero _ _ _ _ hg, ih]

/-- Every nonzero byte has at least one of the 8 sprite bits set. -/
theorem byteBit : ∀ m < 256, m ≠ 0 → ∃ j, j < 8 ∧ m &&& (0x80 >>> j) ≠ 0 := by
  decide

/-- Full characterisation of one sprite row draw `drawCols`: it always
succeeds when the rightmost column index is in range, touches only VF
and the framebuffer, toggles exactly the pixels named by `colToggles`,
and sets VF to 1 exactly when `colCollides` holds of the entry
framebuffer. -/
theorem drawCols_spec (xc yr pixel : Nat) :
    ∀ rem xline c, xline + rem ≤ 8 → xc + 7 + yr * 64 < 2048 →
    ∃ d, drawCols xc yr pixel rem xline c = .ok d
      ∧ d.I = c.I ∧ d.pc = c.pc ∧ d.memory = c.memory ∧ d.stack = c.stack
      ∧ d.sp = c.sp ∧ d.drawFlag = c.drawFlag ∧ d.delayTimer = c.delayTimer
      ∧ d.soundTimer = c.soundTimer ∧ d.keys = c.keys
      ∧ (∀ r, r ≠ 15 → d.V r = c.V r)
      ∧ (∀ i, d.gfx i = if colToggles xc yr pixel rem xline i = true
          then byte (c.gfx i ^^^ 1) else c.gfx i)
      ∧ d.V 15 = (if colCollides xc yr pixel c.gfx rem xline = true
          then 1 else c.V 15) := by
  intro rem
  induction rem with
  | zero =>
    intro xline c _ _
    exact ⟨c, rfl, rfl, rfl, rfl, rfl, rfl, rfl, rfl, rfl, rfl,
      fun _ _ => rfl, fun i => by simp [colToggles], by simp [colCollides]⟩
  | succ rem ih =>
    intro xline c hle hb
    have hyr : yr * 64 < 65536 := by omega
    have hidx : u16 (xc + xline + u16 (yr * 64)) = xc + xline + yr * 64 := by
      rw [u16_small hyr, u16_small (by omega)]
    by_cases hbit : pixel &&& (0x80 >>> xline) ≠ 0
    · -- the sprite bit for this column is set
      have hbitT : (pixel &&& (0x80 >>> xline) != 0) = true := by
        simpa using hbit
      simp only [drawCols]
      rw [if_pos hbit, hidx, if_pos (show xc + xline + yr * 64 < 2048 by omega)]
      have hT0 : colToggles xc yr pixel rem (xline + 1) (xc + xline + yr * 64) = false := by
        apply colToggles_out
        intro j hj1 hj2
        omega
      have hTpos : colToggles xc yr pixel (rem + 1) xline (xc + xline + yr * 64) = true := by
        simp [colToggles, hbitT]
      by_cases hcol : c.gfx (xc + xline + yr * 64) = 1
      · rw [if_pos hcol]
        obtain ⟨d, hd, hI, hpc, hmem, hstk, hsp2, hdf, hdt, hst, hk, hVr, hgfx, hvf⟩ :=
          ih (xline + 1)
            { c with
              V := upd c.V 15 1,
              gfx := upd c.gfx (xc + xline + yr * 64)
                  (byte (c.gfx (xc + xline + yr * 64) ^^^ 1)) }
            (by omega) hb
        dsimp only at hd hI hpc hmem hstk hsp2 hdf hdt hst hk hVr hgfx hvf
        refine ⟨d, hd, hI, hpc, hmem, hstk, hsp2, hdf, hdt, hst, hk,
          (fun r hr => (hVr r hr).trans (upd_other _ _ _ _ hr)), ?_, ?_⟩
        · intro i
          have hgi := hgfx i
          by_cases hi : i = xc + xline + yr * 64
          · subst hi
            rw [hgi, hT0]
            simp only [if_neg (by simp : ¬ (false = true)), upd_same]
            rw [hTpos, if_pos rfl]
          · rw [hgi, upd_other _ _ _ _ hi]
            have hstep : colToggles xc yr pixel (rem + 1) xline i
                = colToggles xc yr pixel rem (xline + 1) i := by
              simp [colToggles, hbitT, hi]
            rw [hstep]
        · have hC : colCollides xc yr pixel c.gfx (rem + 1) xline = true := by
            simp only [colCollides, Bool.or_eq_true, Bool.and_eq_true]
            exact Or.inl ⟨hbitT, by simpa using hcol⟩
          rw [hC, if_pos rfl, hvf]
          simp only [upd_same]
          split_ifs <;> rfl
      · rw [if_neg hcol]
        obtain ⟨d, hd, hI, hpc, hmem, hstk, hsp2, hdf, hdt, hst, hk, hVr, hgfx, hvf⟩ :=
          ih (xline + 1)
            { c with
              gfx := upd c.gfx (xc + xline + yr * 64)
                  (byte (c.gfx (xc + xline + yr * 64) ^^^ 1)) }
            (by omega) hb
        dsimp only at hd hI hpc hmem hstk hsp2 hdf hdt hst hk hVr hgfx hvf
        refine ⟨d, hd, hI, hpc, hmem, hstk, hsp2, hdf, hdt, hst, hk, hVr, ?_, ?_⟩
        · intro i
          have hgi := hgfx i
          by_cases hi : i = xc + xline + yr * 64
          · subst hi
            rw [hgi, hT0]
            simp only [if_neg (by simp : ¬ (false = true)), upd_same]
            rw [hTpos, if_pos rfl]
          · rw [hgi, upd_other _ _ _ _ hi]
            have hstep : colToggles xc yr pixel (rem + 1) xline i
                = colToggles xc yr pixel rem (xline + 1) i := by
              simp [colToggles, hbitT, hi]
            rw [hstep]
        · have hCeq : colCollides xc yr pixel
              (upd c.gfx (xc + xline + yr * 64)
                (byte (c.gfx (xc + xline + yr * 64) ^^^ 1))) rem (xline + 1)
              = colCollides xc yr pixel c.gfx rem (xline + 1) := by
            apply colCollides_congr
            intro j hj1 hj2
            exact upd_other _ _ _ _ (by omega)
          have hhead : ((pixel &&& (0x80 >>> xline) != 0)
              && (c.gfx (xc + xline + yr * 64) == 1)) = false := by
            simp [hcol]
          have hstep : colCollides xc yr pixel c.gfx (rem + 1) xline
              = colCollides xc yr pixel c.gfx rem (xline + 1) := by
            simp [colCollides, hhead]
          rw [hvf, hCeq, hstep]
    · -- the sprite bit for this column is clear
      have hz : pixel &&& (0x80 >>> xline) = 0 := by omega
      have hbitF : (pixel &&& (0x80 >>> xline) != 0) = false := by
        simpa using hz
      simp only [drawCols]
      rw [if_neg hbit]
      obtain ⟨d, hd, hI, hpc, hmem, hstk, hsp2, hdf, hdt, hst, hk, hVr, hgfx, hvf⟩ :=
        ih (xline + 1) c (by omega) hb
      refine ⟨d, hd, hI, hpc, hmem, hstk, hsp2, hdf, hdt, hst, hk, hVr, ?_, ?_⟩
      · intro i
        rw [hgfx i]
        have hstep : colToggles xc yr pixel (rem + 1) xline i
            = colToggles xc yr pixel rem (xline + 1) i := by
          simp [colToggles, hbitF]
        rw [hstep]
      · rw [hvf]
        have hstep : colCollides xc yr pixel c.gfx (rem + 1) xline
            = colCollides xc yr pixel c.gfx rem (xline + 1) := by
          simp [colCollides, hbitF]
        rw [hstep]

/-- Full characterisation of the sprite draw `drawRows`: under the
coordinate bounds (sprite footprint inside the 64 by 32 grid) and the
sprite-memory bound it succeeds, touches only VF and the framebuffer,
toggles exactly the pixels named by `rowToggles`, and sets VF to 1
exactly when `rowCollides` holds of the entry framebuffer. -/
theorem drawRows_spec (xc yc : Nat) :
    ∀ rem yline c, xc ≤ 56 → yc + yline + rem ≤ 32 → c.I + yline + rem ≤ 4096 →
    ∃ d, drawRows xc yc rem yline c = .ok d
      ∧ d.I = c.I ∧ d.pc = c.pc ∧ d.memory = c.memory ∧ d.stack = c.stack
      ∧ d.sp = c.sp ∧ d.drawFlag = c.drawFlag ∧ d.delayTimer = c.delayTimer
      ∧ d.soundTimer = c.soundTimer ∧ d.keys = c.keys
      ∧ (∀ r, r ≠ 15 → d.V r = c.V r)
      ∧ (∀ i, d.gfx i = if rowToggles c.memory c.I xc yc rem yline i = true
          then byte (c.gfx i ^^^ 1) else c.gfx i)
      ∧ d.V 15 = (if rowCollides c.memory c.I xc yc c.gfx rem yline = true
          then 1 else c.V 15) := by
  intro rem
  induction rem with
  | zero =>
    intro yline c _ _ _
    exact ⟨c, rfl, rfl, rfl, rfl, rfl, rfl, rfl, rfl, rfl, rfl,
      fun _ _ => rfl, fun i => by simp [rowToggles], by simp [rowCollides]⟩
  | succ rem ih =>
    intro yline c hxc hyb hIb
    simp only [drawRows]
    rw [u16_small (show c.I + yline < 65536 by omega),
      if_pos (show c.I + yline < 4096 by omega),
      u16_small (show yc + yline < 65536 by omega)]
    obtain ⟨m, hm, mI, mpc, mmem, mstk, msp, mdf, mdt, mst, mk, mVr, mgfx, mvf⟩ :=
      drawCols_spec xc (yc + yline) (c.memory (c.I + yline)) 8 0 c (by omega)
        (by omega)
    rw [hm]
    obtain ⟨d, hd, dI, dpc, dmem, dstk, dsp, ddf, ddt, dst, dk, dVr, dgfx, dvf⟩ :=
      ih (yline + 1) m hxc (by omega) (by omega)
    rw [mmem, mI] at dgfx dvf
    refine ⟨d, hd, dI.trans mI, dpc.trans mpc, dmem.trans mmem, dstk.trans mstk,
      dsp.trans msp, ddf.trans mdf, ddt.trans mdt, dst.trans mst, dk.trans mk,
      (fun r hr => (dVr r hr).trans (mVr r hr)), ?_, ?_⟩
    · intro i
      have hstep : rowToggles c.memory c.I xc yc (rem + 1) yline i
          = (colToggles xc (yc + yline) (c.memory (c.I + yline)) 8 0 i
            || rowToggles c.memory c.I xc yc rem (yline + 1) i) := rfl
      rw [dgfx i, mgfx i, hstep]
      by_cases hA : colToggles xc (yc + yline) (c.memory (c.I + yline)) 8 0 i = true
      · obtain ⟨j, hj1, hj2, hj3⟩ :=
          colToggles_sound xc (yc + yline) (c.memory (c.I + yline)) 8 0 i hA
        have hB : rowToggles c.memory c.I xc yc rem (yline + 1) i = false :=
          rowToggles_out c.memory c.I xc yc rem (yline + 1) i j (yc + yline)
            (by omega) hj3 (by omega)
        rw [hA, hB]
        simp
      · have hA0 : colToggles xc (yc + yline) (c.memory (c.I + yline)) 8 0 i = false :=
          Bool.not_eq_true _ ▸ Bool.of_not_eq_true hA
        rw [hA0]
        simp
    · have hcongr : rowCollides c.memory c.I xc yc m.gfx rem (yline + 1)
          = rowCollides c.memory c.I xc yc c.gfx rem (yline + 1) := by
        apply rowCollides_congr
        intro j yb hj hyb2
        rw [mgfx (xc + j + yb * 64)]
        have hA0 : colToggles xc (yc + yline) (c.memory (c.I + yline)) 8 0
            (xc + j + yb * 64) = false := by
          apply colToggles_out
          intro j2 hj2 hj3
          omega
        rw [hA0]
        simp
      have hstep : rowCollides c.memory c.I xc yc c.gfx (rem + 1) yline
          = (colCollides xc (yc + yline) (c.memory (c.I + yline)) c.gfx 8 0
            || rowCollides c.memory c.I xc yc c.gfx rem (yline + 1)) := rfl
      rw [dvf, hcongr, mvf, hstep]
      cases hB : rowCollides c.memory c.I xc yc c.gfx rem (yline + 1) <;>
        cases hAc : colCollides xc (yc + yline) (c.memory (c.I + yline)) c.gfx 8 0 <;>
        simp [hB, hAc]

/-- Field extraction for draw opcodes written as
`0xD000 + x*256 + y*16 + n` with nibbles `x`, `y`, `n`. -/
theorem maskD : ∀ x < 16, ∀ y < 16, ∀ n < 16,
    (0xD000 + x * 256 + y * 16 + n) &&& 0xF000 = 0xD000
    ∧ ((0xD000 + x * 256 + y * 16 + n) &&& 0x0F00) >>> 8 = x
    ∧ ((0xD000 + x * 256 + y * 16 + n) &&& 0x00F0) >>> 4 = y
    ∧ (0xD000 + x * 256 + y * 16 + n) &&& 0x000F = n := by
  decide

/-- Decode-level characterisation of DXYN when the sprite footprint is
inside the 64 by 32 grid and the sprite bytes are readable: the draw
succeeds, leaves memory, I and all registers but VF unchanged, toggles
exactly the pixels named by `rowToggles`, and computes VF freshly as the
collision bit of this call. -/
theorem decodeD_spec (randByte : Nat) (keyPress : Nat × (Nat → Bool))
    (s : Chip8) (X Y n : Nat) (hX : X < 16) (hY : Y < 16) (hn : n < 16)
    (hx : s.V X ≤ 56) (hy : s.V Y + n ≤ 32) (hI : s.I + n ≤ 4096) :
    ∃ d, Chip8.decodeOpcode randByte keyPress (0xD000 + X * 256 + Y * 16 + n) s = .ok d
      ∧ d.I = s.I ∧ d.memory = s.memory
      ∧ (∀ r, r ≠ 15 → d.V r = s.V r)
      ∧ (∀ i, d.gfx i =
          if rowToggles s.memory s.I (s.V X) (s.V Y) n 0 i = true
          then byte (s.gfx i ^^^ 1) else s.gfx i)
      ∧ d.V 15 = (if rowCollides s.memory s.I (s.V X) (s.V Y) s.gfx n 0 = true
          then 1 else 0) := by
  obtain ⟨h1, h2, h3, h4⟩ := maskD X hX Y hY n hn
  simp only [Chip8.decodeOpcode]
  rw [h1, h2, h3, h4,
    if_neg (show (0xD000 : Nat) ≠ 0x0000 by decide),
    if_neg (show (0xD000 : Nat) ≠ 0x1000 by decide),
    if_neg (show (0xD000 : Nat) ≠ 0x2000 by decide),
    if_neg (show (0xD000 : Nat) ≠ 0x3000 by decide),
    if_neg (show (0xD000 : Nat) ≠ 0x4000 by decide),
    if_neg (show (0xD000 : Nat) ≠ 0x5000 by decide),
    if_neg (show (0xD000 : Nat) ≠ 0x6000 by decide),
    if_neg (show (0xD000 : Nat) ≠ 0x7000 by decide),
    if_neg (show (0xD000 : Nat) ≠ 0x8000 by decide),
    if_neg (show (0xD000 : Nat) ≠ 0x9000 by decide),
    if_neg (show (0xD000 : Nat) ≠ 0xA000 by decide),
    if_neg (show (0xD000 : Nat) ≠ 0xB000 by decide),
    if_neg (show (0xD000 : Nat) ≠ 0xC000 by decide),
    if_pos (show (0xD000 : Nat) = 0xD000 from rfl)]
  obtain ⟨d, hd, dI, dpc, dmem, dstk, dsp, ddf, ddt, dst, dk, dVr, dgfx, dvf⟩ :=
    drawRows_spec (s.V X) (s.V Y) n 0 { s with V := upd s.V 15 0 } hx (by omega)
      (show s.I + 0 + n ≤ 4096 by omega)
  rw [hd]
  exact ⟨{ d with drawFlag := true, pc := u16 (d.pc + 2) }, rfl, dI, dmem,
    (fun r hr => (dVr r hr).trans (upd_other _ _ _ _ hr)),
    dgfx,
    dvf.trans (by dsimp only; rw [upd_same])⟩

/-- Under the coordinate bounds, the sprite draw never reaches the
framebuffer out-of-range branch, whatever the memory pointer is. -/
theorem drawRows_noFault (xc yc : Nat) :
    ∀ rem yline c, xc ≤ 56 → yc + yline + rem ≤ 32 →
    drawFaultIdx (drawRows xc yc rem yline c) = none := by
  intro rem
  induction rem with
  | zero => intros; rfl
  | succ rem ih =>
    intro yline c hxc hyb
    simp only [drawRows]
    by_cases ha : u16 (c.I + yline) < 4096
    · rw [if_pos ha, u16_small (show yc + yline < 65536 by omega)]
      obtain ⟨m, hm, _⟩ :=
        drawCols_spec xc (yc + yline) (c.memory (u16 (c.I + yline))) 8 0 c
          (by omega) (by omega)
      rw [hm]
      exact ih (yline + 1) m hxc (by omega)
    · rw [if_neg ha]
      rfl

/-- C8: starting from an all-zero framebuffer, executing the same DXYN
twice (X, Y not 0xF, sprite footprint inside the 64 by 32 grid, sprite
bytes readable and at least one sprite bit set) restores every
framebuffer pixel to zero, with VF = 0 after the first draw and VF = 1
after the second; VF is recomputed freshly by each call. -/
theorem c8_double_draw (randByte : Nat) (keyPress : Nat × (Nat → Bool))
    (s : Chip8) (X Y n : Nat)
    (hX : X < 16) (hY : Y < 16) (hXF : X ≠ 15) (hYF : Y ≠ 15) (hn : n < 16)
    (hg : ∀ i, s.gfx i = 0)
    (hx : s.V X ≤ 56) (hy : s.V Y + n ≤ 32) (hI : s.I + n ≤ 4096)
    (hmb : ∀ r, r < n → s.memory (s.I + r) < 256)
    (hnz : ∃ r, r < n ∧ s.memory (s.I + r) ≠ 0) :
    ∃ s1 s2,
      Chip8.decodeOpcode randByte keyPress (0xD000 + X * 256 + Y * 16 + n) s = .ok s1
      ∧ s1.V 15 = 0
      ∧ Chip8.decodeOpcode randByte keyPress (0xD000 + X * 256 + Y * 16 + n) s1 = .ok s2
      ∧ s2.V 15 = 1
      ∧ (∀ i, s2.gfx i = 0) := by
  obtain ⟨s1, h1eq, h1I, h1mem, h1Vr, h1gfx, h1vf⟩ :=
    decodeD_spec randByte keyPress s X Y n hX hY hn hx hy hI
  have hRC0 : rowCollides s.memory s.I (s.V X) (s.V Y) s.gfx n 0 = false :=
    rowCollides_zero s.memory s.I (s.V X) (s.V Y) s.gfx hg n 0
  have h1vf0 : s1.V 15 = 0 := by
    rw [h1vf, hRC0]
    simp
  have hVX : s1.V X = s.V X := h1Vr X hXF
  have hVY : s1.V Y = s.V Y := h1Vr Y hYF
  have h1gfx01 : ∀ i, s1.gfx i =
      (if rowToggles s.memory s.I (s.V X) (s.V Y) n 0 i = true then 1 else 0) := by
    intro i
    rw [h1gfx i, hg i]
    rfl
  obtain ⟨s2, h2eq, h2I, h2mem, h2Vr, h2gfx, h2vf⟩ :=
    decodeD_spec randByte keyPress s1 X Y n hX hY hn
      (by rw [hVX]; exact hx) (by rw [hVY]; omega) (by rw [h1I]; exact hI)
  rw [hVX, hVY, h1mem, h1I] at h2gfx h2vf
  refine ⟨s1, s2, h1eq, h1vf0, h2eq, ?_, ?_⟩
  · -- the second draw collides: some sprite bit was set by the first draw
    obtain ⟨r, hr, hmem0⟩ := hnz
    obtain ⟨j, hj, hbit⟩ := byteBit (s.memory (s.I + r)) (hmb r hr) hmem0
    have hT : rowToggles s.memory s.I (s.V X) (s.V Y) n 0
        (s.V X + j + (s.V Y + r) * 64) = true :=
      rowToggles_complete s.memory s.I (s.V X) (s.V Y) n 0 r j (by omega)
        (by omega) hj hbit
    have hone : s1.gfx (s.V X + j + (s.V Y + r) * 64) = 1 := by
      rw [h1gfx01, hT]
      rfl
    have hcol : colCollides (s.V X) (s.V Y + r) (s.memory (s.I + r)) s1.gfx 8 0 = true :=
      colCollides_complete (s.V X) (s.V Y + r) (s.memory (s.I + r)) s1.gfx 8 0 j
        (by omega) (by omega) hbit hone
    have hRC1 : rowCollides s.memory s.I (s.V X) (s.V Y) s1.gfx n 0 = true :=
      rowCollides_complete s.memory s.I (s.V X) (s.V Y) s1.gfx n 0 r (by omega)
        (by omega) hcol
    rw [h2vf, hRC1]
    rfl
  · -- the second draw toggles exactly the same pixels back to zero
    intro i
    rw [h2gfx i, h1gfx01 i]
    by_cases hT : rowToggles s.memory s.I (s.V X) (s.V Y) n 0 i = true
    · rw [hT]
      simp
    · have hTf : rowToggles s.memory s.I (s.V X) (s.V Y) n 0 i = false :=
        Bool.not_eq_true _ ▸ Bool.of_not_eq_true hT
      rw [hTf]
      simp

/-- A state with gfx all zero, one sprite row byte 0x3C at I = 0x200,
V0 = 10, V1 = 5. -/
def c8State : Chip8 :=
  { I := 0x200, pc := 0x200,
    memory := fun a => if a = 0x200 then 0x3C else 0,
    V := fun r => if r = 0 then 10 else if r = 1 then 5 else 0,
    gfx := fun _ => 0, drawFlag := false, stack := fun _ => 0, sp := 0,
    delayTimer := 0, soundTimer := 0, keys := fun _ => false }

/-- Witness for C8 at `c8State` with opcode 0xD011 (X = 0, Y = 1, N = 1). -/
theorem c8_double_draw_witness :
    ((0 : Nat) < 16 ∧ (1 : Nat) < 16 ∧ (0 : Nat) ≠ 15 ∧ (1 : Nat) ≠ 15
      ∧ (1 : Nat) < 16 ∧ (∀ i, c8State.gfx i = 0)
      ∧ c8State.V 0 ≤ 56 ∧ c8State.V 1 + 1 ≤ 32 ∧ c8State.I + 1 ≤ 4096
      ∧ (∀ r, r < 1 → c8State.memory (c8State.I + r) < 256)
      ∧ (∃ r, r < 1 ∧ c8State.memory (c8State.I + r) ≠ 0))
    ∧ ∃ s1 s2,
      Chip8.decodeOpcode 0 noKey (0xD000 + 0 * 256 + 1 * 16 + 1) c8State = .ok s1
      ∧ s1.V 15 = 0
      ∧ Chip8.decodeOpcode 0 noKey (0xD000 + 0 * 256 + 1 * 16 + 1) s1 = .ok s2
      ∧ s2.V 15 = 1
      ∧ (∀ i, s2.gfx i = 0) :=
  ⟨⟨by decide, by decide, by decide, by decide, by decide, fun _ => rfl,
    by decide, by decide, by decide, by decide, ⟨0, by decide, by decide⟩⟩,
   c8_double_draw 0 noKey c8State 0 1 1 (by decide) (by decide) (by decide)
     (by decide) (by decide) (fun _ => rfl) (by decide) (by decide) (by decide)
     (by decide) ⟨0, by decide, by decide⟩⟩

/-- A state exercising the draw fault: V0 = 60, V1 = 31, sprite byte
0x01 (bit in column 7) at I = 0x300. -/
def faultState : Chip8 :=
  { I := 0x300, pc := 0x200,
    memory := fun a => if a = 0x300 then 1 else 0,
    V := fun r => if r = 0 then 60 else if r = 1 then 31 else 0,
    gfx := fun _ => 0, drawFlag := false, stack := fun _ => 0, sp := 0,
    delayTimer := 0, soundTimer := 0, keys := fun _ => false }

/-- C10: the DXYN framebuffer index is the plain linear expression
`V[X] + column + (V[Y] + row) * 64` with no wraparound or clipping:
under the precondition V[X] ≤ 56 and V[Y] + N ≤ 32 the out-of-range
branch is unreachable whatever the memory pointer holds, while the
in-grid coordinates V[X] = 60, V[Y] = 31, N = 1 with a sprite bit in
column 7 compute index 60 + 7 + 31*64 = 2051 > 2047 and fault instead
of wrapping or being dropped. -/
theorem c10_draw_index_linear (randByte : Nat) (keyPress : Nat × (Nat → Bool))
    (s : Chip8) (X Y n : Nat) (hX : X < 16) (hY : Y < 16) (hn : n < 16)
    (hx : s.V X ≤ 56) (hy : s.V Y + n ≤ 32) :
    drawFaultIdx (Chip8.decodeOpcode randByte keyPress
        (0xD000 + X * 256 + Y * 16 + n) s) = none
    ∧ drawFaultIdx (Chip8.decodeOpcode 0 noKey 0xD011 faultState) = some 2051 := by
  constructor
  · obtain ⟨h1, h2, h3, h4⟩ := maskD X hX Y hY n hn
    simp only [Chip8.decodeOpcode]
    rw [h1, h2, h3, h4,
      if_neg (show (0xD000 : Nat) ≠ 0x0000 by decide),
      if_neg (show (0xD000 : Nat) ≠ 0x1000 by decide),
      if_neg (show (0xD000 : Nat) ≠ 0x2000 by decide),
      if_neg (show (0xD000 : Nat) ≠ 0x3000 by decide),
      if_neg (show (0xD000 : Nat) ≠ 0x4000 by decide),
      if_neg (show (0xD000 : Nat) ≠ 0x5000 by decide),
      if_neg (show (0xD000 : Nat) ≠ 0x6000 by decide),
      if_neg (show (0xD000 : Nat) ≠ 0x7000 by decide),
      if_neg (show (0xD000 : Nat) ≠ 0x8000 by decide),
      if_neg (show (0xD000 : Nat) ≠ 0x9000 by decide),
      if_neg (show (0xD000 : Nat) ≠ 0xA000 by decide),
      if_neg (show (0xD000 : Nat) ≠ 0xB000 by decide),
      if_neg (show (0xD000 : Nat) ≠ 0xC000 by decide),
      if_pos (show (0xD000 : Nat) = 0xD000 from rfl)]
    have hnf := drawRows_noFault (s.V X) (s.V Y) n 0 { s with V := upd s.V 15 0 }
      hx (by omega)
    cases hres : drawRows (s.V X) (s.V Y) n 0 { s with V := upd s.V 15 0 } with
    | ok d => rfl
    | error e =>
      rw [hres] at hnf
      exact hnf
  · rfl

/-- Witness for C10 at `subState` (V0 = 5, V1 = 3) with opcode 0xD011. -/
theorem c10_draw_index_linear_witness :
    ((0 : Nat) < 16 ∧ (1 : Nat) < 16 ∧ (1 : Nat) < 16
      ∧ subState.V 0 ≤ 56 ∧ subState.V 1 + 1 ≤ 32)
    ∧ drawFaultIdx (Chip8.decodeOpcode 0 noKey
        (0xD000 + 0 * 256 + 1 * 16 + 1) subState) = none
    ∧ drawFaultIdx (Chip8.decodeOpcode 0 noKey 0xD011 faultState) = some 2051 :=
  ⟨⟨by decide, by decide, by decide, by decide, by decide⟩,
   c10_draw_index_linear 0 noKey subState 0 1 1 (by decide) (by decide)
     (by decide) (by decide) (by decide)⟩
